import Mathlib

/-!
Verification of the fund-NAV visualization pipeline (`src/app.py`).

The development shallowly embeds the pipeline's pure data flow:

* `extractJsonp` — the JSONP unwrapping regex `\((.*?)\)` of
  `FundDataFetcher.get_fund_nav_data` (app.py line 124);
* `getFundNavData` — the fetcher's response handling and exception
  discipline (app.py lines 115-145), with the HTTP transport and the
  stdlib `json.loads` abstracted as parameters;
* `fetchMultipleFundsData` — `FundDataProcessor.fetch_multiple_funds_data`
  (app.py lines 156-198), the date/series aligner;
* `calculate_yaxis_range` — `FundDataProcessor.calculate_yaxis_range`
  (app.py lines 200-229);
* `prepareChartData` / `mainRun` — `FundChartGenerator.prepare_chart_data`
  (app.py lines 290-327) and `main` (app.py lines 462-509), with the
  pyecharts renderer treated as the black box the spec declares it to be.

Python machine floats are modelled by `ℚ`; `round(x, 4)` (banker's
rounding) by `round4`.  Python dicts are modelled by insertion-ordered
association lists with `dlookup`/`dinsert`.  Python exceptions are
modelled by `Except PyExc`.
-/

/-- Python exception classes that appear in `app.py`'s control flow.
`requestException` covers `requests.RequestException` (connection errors,
timeouts, and the `HTTPError` raised by `raise_for_status` on non-2xx). -/
inductive PyExc
  | requestException
  | jsonDecodeError
  | keyError
  | attributeError
  | typeError
  | valueError
deriving DecidableEq, Repr

/-- JSON values, as produced by `json.loads`.  Numbers are modelled by `ℚ`. -/
inductive JsonVal
  | jnull
  | jbool (b : Bool)
  | jnum (q : ℚ)
  | jstr (s : String)
  | jarr (xs : List JsonVal)
  | jobj (kvs : List (String × JsonVal))

/-- Log events, one constructor per logging call site of `app.py` that the
claims mention.  Logging is modelled as a returned event list. -/
inductive LogEvent
  | formatWarning (code : String)
  | apiErrorWarning (code : String)
  | networkError (code : String)
  | parseError (code : String)
  | unknownError (code : String)
  | emptyFundWarning (name code : String)
  | noValidDataError
  | terminatedNoData
  | mainError
deriving DecidableEq

/-- A raw provider NAV record as consumed by the aligner:
`item.get('FSRQ', '')` and `item.get('DWJZ', '0')`.  `FSRQ`, when present,
is a date string (the provider schema); `DWJZ` may be any JSON value. -/
structure NavRecord where
  fsrq : Option String
  dwjz : Option JsonVal

/-- Outcome of the one HTTP round trip in `get_fund_nav_data`:
either some `requests.RequestException` was raised (including non-2xx via
`raise_for_status`), or a 2xx response with the given body text arrived. -/
inductive FetchOutcome
  | transportError
  | success (body : String)

/-- Lookup in an insertion-ordered association list (Python `d[k]` / `k in d`). -/
def dlookup [DecidableEq κ] (k : κ) : List (κ × α) → Option α
  | [] => none
  | (k', v) :: rest => if k = k' then some v else dlookup k rest

/-- Assignment `d[k] = v` on an insertion-ordered association list:
replaces in place if the key exists, otherwise appends. -/
def dinsert [DecidableEq κ] (k : κ) (v : α) : List (κ × α) → List (κ × α)
  | [] => [(k, v)]
  | (k', v') :: rest => if k = k' then (k', v) :: rest else (k', v') :: dinsert k v rest

@[simp]
theorem dlookup_nil [DecidableEq κ] (k : κ) : dlookup k ([] : List (κ × α)) = none := rfl

theorem dlookup_dinsert_self [DecidableEq κ] (k : κ) (v : α) :
    ∀ d : List (κ × α), dlookup k (dinsert k v d) = some v := by
  intro d
  induction d with
  | nil => simp [dinsert, dlookup]
  | cons p rest ih =>
    obtain ⟨k', v'⟩ := p
    by_cases h : k = k' <;> simp [dinsert, dlookup, h, ih]

theorem dlookup_dinsert_ne [DecidableEq κ] (k k' : κ) (v : α) (hne : k ≠ k') :
    ∀ d : List (κ × α), dlookup k (dinsert k' v d) = dlookup k d := by
  intro d
  induction d with
  | nil => simp [dinsert, dlookup, hne]
  | cons p rest ih =>
    obtain ⟨k'', v''⟩ := p
    by_cases h : k' = k'' <;> by_cases h2 : k = k'' <;>
      simp [dinsert, dlookup, h, h2, hne, ih] <;> simp_all

/-- Lookup after `dinsert`, combined form. -/
theorem dlookup_dinsert [DecidableEq κ] (k k' : κ) (v : α) (d : List (κ × α)) :
    dlookup k (dinsert k' v d) = if k = k' then some v else dlookup k d := by
  by_cases h : k = k'
  · subst h; simp [dlookup_dinsert_self]
  · simp [h, dlookup_dinsert_ne k k' v h]

/-- Left-biased combination of options; `oor a b` is `a` unless `a` is `none`. -/
def oor : Option α → Option α → Option α
  | some v, _ => some v
  | none, b => b

@[simp]
theorem oor_none_left (b : Option α) : oor none b = b := rfl

@[simp]
theorem oor_some_left (v : α) (b : Option α) : oor (some v) b = some v := rfl

@[simp]
theorem oor_none_right (a : Option α) : oor a none = a := by cases a <;> rfl

theorem oor_assoc (a b c : Option α) : oor (oor a b) c = oor a (oor b c) := by
  cases a <;> cases b <;> rfl

theorem oor_self (a : Option α) : oor a a = a := by cases a <;> rfl

/-! ## The Python `float(...)` conversion

`fetch_multiple_funds_data` runs `float(nav_value)` under
`except ValueError` only (app.py lines 192-196).  `float` on a string
parses a decimal literal and raises `ValueError` on failure; on a number
or bool it converts; on `None`, lists and dicts it raises `TypeError`.
The string grammar modelled here is sign, digits with optional fraction,
optional exponent, surrounded by optional whitespace (Python additionally
accepts `inf`/`nan` spellings and digit underscores, which never occur in
NAV data and are outside the `ℚ` model). -/

/-- Numeric value of a digit character. -/
def digitVal (c : Char) : ℕ := c.toNat - '0'.toNat

/-- Value of a digit string, most significant first. -/
def digitsToNat (ds : List Char) : ℕ := ds.foldl (fun acc c => 10 * acc + digitVal c) 0

/-- Whitespace accepted (and stripped) by Python `float` around a literal. -/
def isPySpace (c : Char) : Bool := c = ' ' ∨ c = '\t' ∨ c = '\n' ∨ c = '\r'

/-- Strip leading and trailing whitespace. -/
def trimChars (cs : List Char) : List Char :=
  ((cs.dropWhile isPySpace).reverse.dropWhile isPySpace).reverse

/-- Parse an optionally signed exponent part (everything after `e`/`E`);
all characters must be consumed. -/
def parseExpDigits (cs : List Char) : Option ℤ :=
  match cs with
  | '+' :: rest => if rest ≠ [] ∧ rest.all Char.isDigit then some (digitsToNat rest) else none
  | '-' :: rest => if rest ≠ [] ∧ rest.all Char.isDigit then some (-(digitsToNat rest : ℤ)) else none
  | rest => if rest ≠ [] ∧ rest.all Char.isDigit then some (digitsToNat rest) else none

/-- Parse the optional exponent suffix applied to `base`. -/
def parseExpPart (base : ℚ) (cs : List Char) : Option ℚ :=
  match cs with
  | [] => some base
  | c :: rest =>
    if c = 'e' ∨ c = 'E' then
      match parseExpDigits rest with
      | some z => some (base * (10 : ℚ) ^ z)
      | none => none
    else none

/-- Parse an unsigned decimal literal (with optional fraction and exponent). -/
def parseUnsignedDec (cs : List Char) : Option ℚ :=
  let intPart := cs.takeWhile Char.isDigit
  let rest1 := cs.dropWhile Char.isDigit
  match rest1 with
  | '.' :: rest2 =>
    let fracPart := rest2.takeWhile Char.isDigit
    let rest3 := rest2.dropWhile Char.isDigit
    if intPart = [] ∧ fracPart = [] then none
    else
      parseExpPart ((digitsToNat intPart : ℚ) +
        (digitsToNat fracPart : ℚ) / (10 : ℚ) ^ fracPart.length) rest3
  | _ => if intPart = [] then none else parseExpPart (digitsToNat intPart : ℚ) rest1

/-- Python `float(s)` for a string `s`: `some q` on success, `none` when
Python would raise `ValueError`. -/
def parsePyFloat (s : String) : Option ℚ :=
  match trimChars s.data with
  | '+' :: rest => parseUnsignedDec rest
  | '-' :: rest => (parseUnsignedDec rest).map Neg.neg
  | rest => parseUnsignedDec rest

/-- Python `float(x)` on an arbitrary JSON value: numbers and bools
convert, strings parse or raise `ValueError`, everything else
(`None`, lists, dicts) raises `TypeError`. -/
def pyFloat : JsonVal → Except PyExc ℚ
  | .jnum q => .ok q
  | .jbool b => .ok (if b then 1 else 0)
  | .jstr s =>
    match parsePyFloat s with
    | some q => .ok q
    | none => .error .valueError
  | _ => .error .typeError

/-! ## Axis range calculator (app.py lines 200-229)

`pandas.Series.max`/`.min` on the non-empty series are modelled by folds;
the `data_series.empty` guard precedes every use of them. -/

/-- Model of `data_series.max()`; the `[]` value is arbitrary (the code guards
emptiness before calling). -/
def seriesMax : List ℚ → ℚ
  | [] => 0
  | x :: xs => xs.foldl max x

/-- Model of `data_series.min()`; the `[]` value is arbitrary (the code guards
emptiness before calling). -/
def seriesMin : List ℚ → ℚ
  | [] => 0
  | x :: xs => xs.foldl min x

/-- Round to the nearest integer, ties to even — the semantics of
Python 3 `round` on the exact value. -/
def roundHalfEven (q : ℚ) : ℤ :=
  let f := ⌊q⌋
  let r := q - (f : ℚ)
  if r < 1/2 then f
  else if 1/2 < r then f + 1
  else if f % 2 = 0 then f else f + 1

/-- Python `round(x, 4)`. -/
def round4 (q : ℚ) : ℚ := (roundHalfEven (q * 10000) : ℚ) / 10000

/-- Model of `FundDataProcessor.calculate_yaxis_range` (app.py lines 200-229).
The source's default `margin_ratio` is `0.08`; it is passed explicitly
here.  Empty series return the fixed default `(1.0, 0.0)`; otherwise
`y_max = max * (1 + m)`, `y_min = max(min * (1 - m), 0)`, both rounded
to 4 decimal places. -/
def calculate_yaxis_range (dataSeries : List ℚ) (margin_ratio : ℚ) : ℚ × ℚ :=
  if dataSeries.isEmpty then (1, 0)
  else
    let yMax := seriesMax dataSeries * (1 + margin_ratio)
    let yMin := max (seriesMin dataSeries * (1 - margin_ratio)) 0
    (round4 yMax, round4 yMin)

/-- Reference definition transcribed from the spec's words (§4.3):
empty input returns `(1.0, 0.0)`; otherwise
`yMax = round(max(S) * (1 + m), 4)` and
`yMin = round(max(min(S) * (1 - m), 0), 4)`. -/
def specYaxisRange (s : List ℚ) (m : ℚ) : ℚ × ℚ :=
  if s.isEmpty then (1, 0)
  else (round4 (seriesMax s * (1 + m)), round4 (max (seriesMin s * (1 - m)) 0))

/-! ## JSONP unwrapping (app.py line 124)

`re.search(r'\((.*?)\)', response.text)`: the regex engine finds the
leftmost `(` from which a lazy `.*?` (any characters except newline) can
reach a `)`, and captures the characters in between — i.e. everything up
to the *first* `)` after that `(`.  This is not balanced-parenthesis
matching. -/

/-- Characters of the lazy `.*?` match up to the first `)`; fails if a
newline (which `.` does not match) or the end of input comes first. -/
def takeToClose : List Char → Option (List Char)
  | [] => none
  | c :: rest =>
    if c = ')' then some []
    else if c = '\n' then none
    else (takeToClose rest).map (fun cs => c :: cs)

/-- Scan for the leftmost `(` from which `takeToClose` succeeds. -/
def scanParen : List Char → Option (List Char)
  | [] => none
  | c :: rest =>
    if c = '(' then
      match takeToClose rest with
      | some inner => some inner
      | none => scanParen rest
    else scanParen rest

/-- Model of `re.search(r'\((.*?)\)', s)`, returning `group(1)`:
`None` when the pattern does not match. -/
def extractJsonp (s : String) : Option String :=
  (scanParen s.data).map (fun cs => ⟨cs⟩)

/-! ## The fetcher `get_fund_nav_data` (app.py lines 115-145)

The HTTP round trip is abstracted by a `FetchOutcome` and the stdlib
`json.loads` by a function argument `jsonLoads` (it may return any JSON
value or raise; `json.loads` itself is outside this repository).  The
`try` body translates to `getFundNavDataRaw` with raised exceptions
explicit in `Except`; the three `except` clauses translate to
`handleFetchExc`. -/

/-- Python `data.get(key)` — raises `AttributeError` unless `data` is a
dict; returns `None` (here `none`) when the key is absent. -/
def pyDictGet (v : JsonVal) (key : String) : Except PyExc (Option JsonVal)  :=
  match v with
  | .jobj kvs => .ok (dlookup key kvs)
  | _ => .error .attributeError

/-- Python `d.get(key, default)` — like `pyDictGet` with a default. -/
def pyDictGetD (v : JsonVal) (key : String) (default : JsonVal) : Except PyExc JsonVal :=
  match v with
  | .jobj kvs => .ok ((dlookup key kvs).getD default)
  | _ => .error .attributeError

/-- Python `x != 0` where `x` is the result of `data.get("ErrCode")`
(`None` when absent): numbers compare numerically, bools as 0/1,
`None` and every non-numeric value are `!= 0`. -/
def pyNeZero : Option JsonVal → Bool
  | some (.jnum q) => decide (q ≠ 0)
  | some (.jbool b) => b
  | _ => true

/-- The `try` body of `get_fund_nav_data` (app.py lines 115-135):
raise on transport error, return `None` when the JSONP wrapper is
missing, pass `json.loads` failures through as exceptions, return `None`
on a non-zero `ErrCode`, else return `Data.LSJZList` (default `[]`). -/
def getFundNavDataRaw (code : String) (jsonLoads : String → Except PyExc JsonVal)
    (o : FetchOutcome) : Except PyExc (Option JsonVal × List LogEvent) :=
  match o with
  | .transportError => .error .requestException
  | .success body =>
    match extractJsonp body with
    | none => .ok (none, [.formatWarning code])
    | some inner =>
      match jsonLoads inner with
      | .error e => .error e
      | .ok data =>
        match pyDictGet data "ErrCode" with
        | .error e => .error e
        | .ok errCode =>
          if pyNeZero errCode then .ok (none, [.apiErrorWarning code])
          else
            match pyDictGet data "Data" with
            | .error e => .error e
            | .ok dataField =>
              match pyDictGetD (dataField.getD (.jobj [])) "LSJZList" (.jarr []) with
              | .error e => .error e
              | .ok lst => .ok (some lst, [])

/-- The three `except` clauses of `get_fund_nav_data` (app.py lines
137-145): `requests.RequestException`, `(json.JSONDecodeError, KeyError)`
and the final bare `except Exception` each log and return `None`. -/
def handleFetchExc (code : String) :
    Except PyExc (Option JsonVal × List LogEvent) → Option JsonVal × List LogEvent
  | .ok r => r
  | .error .requestException => (none, [.networkError code])
  | .error .jsonDecodeError => (none, [.parseError code])
  | .error .keyError => (none, [.parseError code])
  | .error _ => (none, [.unknownError code])

/-- Model of `FundDataFetcher.get_fund_nav_data` (app.py lines 115-145):
the `try` body with every exception class handled. -/
def getFundNavData (code : String) (jsonLoads : String → Except PyExc JsonVal)
    (o : FetchOutcome) : Option JsonVal × List LogEvent :=
  handleFetchExc code (getFundNavDataRaw code jsonLoads o)

/-! ## The aligner `fetch_multiple_funds_data` (app.py lines 156-198)

The per-fund fetch is abstracted as `fetch : String → Option (List
NavRecord)` (the observable interface of `get_fund_nav_data` as this
function consumes it).  `if not data: continue` skips both `None` and
`[]`.  The inner loop `for index, item in enumerate(reversed(data))`
becomes `processItems` over `data.reverse`.  Only `ValueError` is caught
around `float(nav_value)`; a `TypeError` propagates out (`Except`). -/

/-- The loop body over `enumerate(reversed(data))` (app.py lines
185-196): record the date at a fresh index, convert `DWJZ` with
`float`, storing `0.0` on `ValueError` and propagating anything else. -/
def processItems : List NavRecord → ℕ → List (ℕ × String) → List (ℕ × ℚ) →
    Except PyExc (List (ℕ × String) × List (ℕ × ℚ))
  | [], _, dm, series => .ok (dm, series)
  | item :: rest, idx, dm, series =>
    let dateStr := item.fsrq.getD ""
    let navVal := item.dwjz.getD (.jstr "0")
    let dm' := if (dlookup idx dm).isSome then dm else dinsert idx dateStr dm
    match pyFloat navVal with
    | .ok q => processItems rest (idx + 1) dm' (dinsert idx q series)
    | .error .valueError => processItems rest (idx + 1) dm' (dinsert idx (0 : ℚ) series)
    | .error e => .error e

/-- The outer loop over `fund_codes` (app.py lines 177-196). -/
def fetchLoop (fetch : String → Option (List NavRecord)) :
    List String → List (ℕ × String) → List (String × List (ℕ × ℚ)) →
    Except PyExc (List (ℕ × String) × List (String × List (ℕ × ℚ)))
  | [], dm, fd => .ok (dm, fd)
  | c :: rest, dm, fd =>
    match fetch c with
    | none => fetchLoop fetch rest dm fd
    | some [] => fetchLoop fetch rest dm fd
    | some (item :: items) =>
      match processItems ((item :: items).reverse) 0 dm ((dlookup c fd).getD []) with
      | .ok (dm', series') => fetchLoop fetch rest dm' (dinsert c series' fd)
      | .error e => .error e

/-- Model of `fund_data = {code: {} for code in fund_codes}` (app.py line 175). -/
def initFd (codes : List String) : List (String × List (ℕ × ℚ)) :=
  codes.foldl (fun fd c => dinsert c [] fd) []

/-- Model of `FundDataProcessor.fetch_multiple_funds_data` (app.py lines 156-198):
returns the date index and the per-code series, or the uncaught
exception. -/
def fetchMultipleFundsData (codes : List String)
    (fetch : String → Option (List NavRecord)) :
    Except PyExc (List (ℕ × String) × List (String × List (ℕ × ℚ))) :=
  fetchLoop fetch codes [] (initFd codes)

/-! ## Chart data preparation and the entry point (app.py 290-327, 462-509) -/

/-- Model of `{i: 0.0 for i in range(len(date_mapping))}` (app.py line 320). -/
def zerosSeries (n : ℕ) : List (ℕ × ℚ) := (List.range n).map (fun i => (i, (0 : ℚ)))

/-- The column-building loop of `prepare_chart_data` (app.py lines
315-320): a fund whose series dict is missing or empty gets an all-zero
series of the date-index length, with a warning. -/
def buildCols (dmLen : ℕ) (fd : List (String × List (ℕ × ℚ))) :
    List (String × String) → List (String × List (ℕ × ℚ)) × List LogEvent
  | [] => ([], [])
  | (name, code) :: rest =>
    let (cols, log) := buildCols dmLen fd rest
    match dlookup code fd with
    | some s =>
      if s.isEmpty then ((name, zerosSeries dmLen) :: cols, .emptyFundWarning name code :: log)
      else ((name, s) :: cols, log)
    | none => ((name, zerosSeries dmLen) :: cols, .emptyFundWarning name code :: log)

/-- Model of `FundChartGenerator.prepare_chart_data` (app.py lines 290-327):
`None` (plus an error log) when the date index is empty or every fund's
series dict is empty (`not date_mapping or not any(fund_data.values())`),
else the date index together with one column per configured fund.
The conversion to a `pandas.DataFrame` is representation only and is not
modelled. -/
def prepareChartData (config : List (String × String))
    (fetch : String → Option (List NavRecord)) :
    Except PyExc (Option (List (ℕ × String) × List (String × List (ℕ × ℚ)))) ×
      List LogEvent :=
  match fetchMultipleFundsData (config.map Prod.snd) fetch with
  | .error e => (.error e, [])
  | .ok (dm, fd) =>
    if dm.isEmpty || fd.all (fun p => p.2.isEmpty) then (.ok none, [.noValidDataError])
    else
      let (cols, log) := buildCols dm.length fd config
      (.ok (some (dm, cols)), log)

/-- Observable outcome of one run of `main` (app.py lines 462-509). -/
inductive MainResult
  | abortedNoData
  | completed (outputPath : String)
  | crashedLogged (e : PyExc)

/-- Model of `main` (app.py lines 462-509): prepare the data; on `None` log and
return without output; on success generate and render the chart to
`./index.html` (chart generation and rendering are the black-box
pyecharts renderer); any exception is caught by the top-level handler,
logged, and the run produces no output. -/
def mainRun (config : List (String × String))
    (fetch : String → Option (List NavRecord)) : MainResult × List LogEvent :=
  match prepareChartData config fetch with
  | (.error e, log) => (.crashedLogged e, log ++ [.mainError])
  | (.ok none, log) => (.abortedNoData, log ++ [.terminatedNoData])
  | (.ok (some _), log) => (.completed "./index.html", log)

/-! ## Specification-side helper functions for the claims -/

/-- The first fund (in iteration order) whose fetch yields a non-empty
record list, together with that list. -/
def firstSuccess (fetch : String → Option (List NavRecord)) :
    List String → Option (String × List NavRecord)
  | [] => none
  | c :: rest =>
    match fetch c with
    | none => firstSuccess fetch rest
    | some [] => firstSuccess fetch rest
    | some (item :: items) => some (c, item :: items)

/-- The date the first fund reaching offset `k` supplies for it: the
`FSRQ` of the record at position `k` of that fund's reversed
(oldest-first) record list. -/
def firstDateAt (fetch : String → Option (List NavRecord)) :
    List String → ℕ → Option String
  | [], _ => none
  | c :: rest, k =>
    match fetch c with
    | none => firstDateAt fetch rest k
    | some [] => firstDateAt fetch rest k
    | some (item :: items) =>
      oor (((item :: items).reverse.get? k).map (fun r => r.fsrq.getD ""))
        (firstDateAt fetch rest k)

/-- The value `fetch_multiple_funds_data` stores for a record: the
parsed `float` of its `DWJZ` field when conversion succeeds, `0.0` when
it raises `ValueError`. -/
def recValue (r : NavRecord) : ℚ :=
  match pyFloat (r.dwjz.getD (.jstr "0")) with
  | .ok q => q
  | .error _ => 0

/-- The series value a fund with fetched list `l` holds at offset `k`. -/
def fundValueAt (fetch : String → Option (List NavRecord)) (c : String) (k : ℕ) : Option ℚ :=
  match fetch c with
  | none => none
  | some l => (l.reverse.get? k).map recValue

/-- Date supplied for offset `k` by a record list processed from index
`idx` (bookkeeping for the inner-loop induction). -/
def itemDateAt (items : List NavRecord) (idx k : ℕ) : Option String :=
  if idx ≤ k then (items.get? (k - idx)).map (fun r => r.fsrq.getD "") else none

/-- Value supplied for offset `k` by a record list processed from index
`idx` (bookkeeping for the inner-loop induction). -/
def itemValueAt (items : List NavRecord) (idx k : ℕ) : Option ℚ :=
  if idx ≤ k then (items.get? (k - idx)).map recValue else none

/-! ## Concrete fixtures used by counterexamples and witnesses -/

/-- One fund, two records, provider order newest-first. -/
def c2cexFetch : String → Option (List NavRecord) := fun c =>
  if c = "001" then
    some [⟨some "2024-01-02", some (.jstr "1.1")⟩, ⟨some "2024-01-01", some (.jstr "1.0")⟩]
  else none

/-- One fund, three records, provider order newest-first. -/
def c2Fetch : String → Option (List NavRecord) := fun c =>
  if c = "001" then
    some [⟨some "2024-01-03", some (.jstr "1.2")⟩, ⟨some "2024-01-02", some (.jstr "1.1")⟩,
      ⟨some "2024-01-01", some (.jstr "1.0")⟩]
  else none

/-- The record list `c2Fetch` returns for fund `001`. -/
def c2List : List NavRecord :=
  [⟨some "2024-01-03", some (.jstr "1.2")⟩, ⟨some "2024-01-02", some (.jstr "1.1")⟩,
    ⟨some "2024-01-01", some (.jstr "1.0")⟩]

/-- Date index produced by running the aligner on `c2Fetch`. -/
def c2Dm : List (ℕ × String) := [(0, "2024-01-01"), (1, "2024-01-02"), (2, "2024-01-03")]

/-- Series map produced by running the aligner on `c2Fetch`. -/
def c2Fd : List (String × List (ℕ × ℚ)) :=
  [("001", [(0, 1), (1, 11/10), (2, 6/5)])]

/-- Two funds with overlapping windows: fund `001` has two records,
fund `002` has three, both newest-first. -/
def c4Fetch : String → Option (List NavRecord) := fun c =>
  if c = "001" then
    some [⟨some "2024-01-03", some (.jstr "1.2")⟩, ⟨some "2024-01-02", some (.jstr "1.1")⟩]
  else if c = "002" then
    some [⟨some "2024-01-04", some (.jstr "2.3")⟩, ⟨some "2024-01-03", some (.jstr "2.2")⟩,
      ⟨some "2024-01-02", some (.jstr "2.1")⟩]
  else none

/-- Date index produced by running the aligner on `c4Fetch`. -/
def c4Dm : List (ℕ × String) := [(0, "2024-01-02"), (1, "2024-01-03"), (2, "2024-01-04")]

/-- Series map produced by running the aligner on `c4Fetch`. -/
def c4Fd : List (String × List (ℕ × ℚ)) :=
  [("001", [(0, 11/10), (1, 6/5)]), ("002", [(0, 21/10), (1, 11/5), (2, 23/10)])]

/-- Fund `001` succeeds with one record, fund `002` fails. -/
def c6Fetch : String → Option (List NavRecord) := fun c =>
  if c = "001" then some [⟨some "2024-01-05", some (.jstr "1.2345")⟩] else none

/-- Every fetch fails. -/
def c7Fetch : String → Option (List NavRecord) := fun _ => none

/-- A record whose `DWJZ` string parses to a negative number. -/
def c8CexFetch : String → Option (List NavRecord) := fun c =>
  if c = "001" then some [⟨some "2024-01-01", some (.jstr "-1.5")⟩] else none

/-- Two records, newest-first; the older one has an unparsable `DWJZ`. -/
def c8Fetch : String → Option (List NavRecord) := fun c =>
  if c = "001" then
    some [⟨some "2024-01-02", some (.jstr "1.5")⟩, ⟨some "2024-01-01", some (.jstr "N/A")⟩]
  else none

/-- The record list `c8Fetch` returns for fund `001`. -/
def c8List : List NavRecord :=
  [⟨some "2024-01-02", some (.jstr "1.5")⟩, ⟨some "2024-01-01", some (.jstr "N/A")⟩]

/-- Fund `001` succeeds; fund `002` has a record whose `DWJZ` is JSON
`null`, so `float(None)` raises `TypeError`. -/
def c10Fetch : String → Option (List NavRecord) := fun c =>
  if c = "001" then some [⟨some "2024-01-05", some (.jstr "1.2345")⟩]
  else if c = "002" then some [⟨some "2024-01-05", some .jnull⟩]
  else none

/-! # Theorems -/

/-! ## Rounding and series bounds -/

theorem roundHalfEven_le (q : ℚ) : (roundHalfEven q : ℚ) ≤ q + 1/2 := by
  have h1 : ((⌊q⌋ : ℤ) : ℚ) ≤ q := Int.floor_le q
  have h2 : q < (⌊q⌋ : ℚ) + 1 := Int.lt_floor_add_one q
  simp only [roundHalfEven]
  split_ifs with ha hb hc <;> push_cast <;> linarith

theorem roundHalfEven_ge (q : ℚ) : q - 1/2 ≤ (roundHalfEven q : ℚ) := by
  have h1 : ((⌊q⌋ : ℤ) : ℚ) ≤ q := Int.floor_le q
  have h2 : q < (⌊q⌋ : ℚ) + 1 := Int.lt_floor_add_one q
  simp only [roundHalfEven]
  split_ifs with ha hb hc <;> push_cast <;> linarith

theorem roundHalfEven_nonneg (q : ℚ) (hq : 0 ≤ q) : (0 : ℚ) ≤ (roundHalfEven q : ℚ) := by
  have h1 : (0 : ℚ) ≤ ((⌊q⌋ : ℤ) : ℚ) := by
    exact_mod_cast Int.floor_nonneg.mpr hq
  simp only [roundHalfEven]
  split_ifs <;> push_cast <;> linarith

theorem round4_le (q : ℚ) : round4 q ≤ q + 1/20000 := by
  have h := roundHalfEven_le (q * 10000)
  simp only [round4]
  linarith

theorem round4_ge (q : ℚ) : q - 1/20000 ≤ round4 q := by
  have h := roundHalfEven_ge (q * 10000)
  simp only [round4]
  linarith

theorem round4_nonneg (q : ℚ) (hq : 0 ≤ q) : 0 ≤ round4 q := by
  have h := roundHalfEven_nonneg (q * 10000) (by linarith)
  simp only [round4]
  linarith

theorem foldl_max_mono (xs : List ℚ) : ∀ a b : ℚ, a ≤ b → xs.foldl max a ≤ xs.foldl max b := by
  induction xs with
  | nil => intro a b h; simpa using h
  | cons x rest ih =>
    intro a b h
    simp only [List.foldl_cons]
    exact ih _ _ (max_le_max_right x h)

theorem le_foldl_max (xs : List ℚ) : ∀ a : ℚ, a ≤ xs.foldl max a := by
  induction xs with
  | nil => intro a; simp
  | cons x rest ih =>
    intro a
    simp only [List.foldl_cons]
    exact le_trans (le_max_left a x) (ih (max a x))

theorem mem_le_foldl_max (xs : List ℚ) : ∀ a x : ℚ, x ∈ xs → x ≤ xs.foldl max a := by
  induction xs with
  | nil => intro a x h; cases h
  | cons y rest ih =>
    intro a x h
    simp only [List.foldl_cons]
    rcases List.mem_cons.mp h with h | h
    · subst h
      exact le_trans (le_max_right a x) (le_foldl_max rest (max a x))
    · exact ih (max a y) x h

theorem foldl_min_mono (xs : List ℚ) : ∀ a b : ℚ, a ≤ b → xs.foldl min a ≤ xs.foldl min b := by
  induction xs with
  | nil => intro a b h; simpa using h
  | cons x rest ih =>
    intro a b h
    simp only [List.foldl_cons]
    exact ih _ _ (min_le_min_right x h)

theorem foldl_min_le (xs : List ℚ) : ∀ a : ℚ, xs.foldl min a ≤ a := by
  induction xs with
  | nil => intro a; simp
  | cons x rest ih =>
    intro a
    simp only [List.foldl_cons]
    exact le_trans (ih (min a x)) (min_le_left a x)

theorem foldl_min_le_mem (xs : List ℚ) : ∀ a x : ℚ, x ∈ xs → xs.foldl min a ≤ x := by
  induction xs with
  | nil => intro a x h; cases h
  | cons y rest ih =>
    intro a x h
    simp only [List.foldl_cons]
    rcases List.mem_cons.mp h with h | h
    · subst h
      exact le_trans (foldl_min_le rest (min a x)) (min_le_right a x)
    · exact ih (min a y) x h

theorem seriesMin_le_mem (s : List ℚ) (x : ℚ) (hx : x ∈ s) : seriesMin s ≤ x := by
  cases s with
  | nil => cases hx
  | cons y rest =>
    rcases List.mem_cons.mp hx with h | h
    · subst h
      exact foldl_min_le rest x
    · exact foldl_min_le_mem rest y x h

theorem mem_le_seriesMax (s : List ℚ) (x : ℚ) (hx : x ∈ s) : x ≤ seriesMax s := by
  cases s with
  | nil => cases hx
  | cons y rest =>
    rcases List.mem_cons.mp hx with h | h
    · subst h
      exact le_foldl_max rest x
    · exact mem_le_foldl_max rest y x h

theorem seriesMin_le_seriesMax (s : List ℚ) (h : s ≠ []) : seriesMin s ≤ seriesMax s := by
  cases s with
  | nil => exact absurd rfl h
  | cons y rest =>
    exact le_trans (foldl_min_le rest y) (le_foldl_max rest y)

/-! ## Claim C9 -/

/-- C9: `calculate_yaxis_range` equals the reference definition
transcribed from the spec: `(1.0, 0.0)` on an empty series, otherwise
`(round(max(S) * (1 + m), 4), round(max(min(S) * (1 - m), 0), 4))`. -/
theorem calculate_yaxis_range_eq_spec (s : List ℚ) (m : ℚ) :
    calculate_yaxis_range s m = specYaxisRange s m := rfl

/-! ## Claim C3 -/

/-- C3 counterexample: for the one-element series `[0.000135]` with the
default margin ratio `0.08`, the 4-decimal rounding step pushes `yMax`
below `max(S)` (`round(0.000135 * 1.08, 4) = 0.0001 < 0.000135`), so the
claimed containment `max(S) ≤ yMax` fails. -/
theorem yaxis_range_rounding_cex :
    ¬ (seriesMax [(27 : ℚ)/200000] ≤ (calculate_yaxis_range [(27 : ℚ)/200000] (8/100)).1) := by
  have hf : ⌊(729/500 : ℚ)⌋ = 1 := by
    rw [Int.floor_eq_iff] <;> norm_num
  have hm : ((27 : ℚ)/200000) * (1 + 8/100) * 10000 = 729/500 := by norm_num
  have hr : round4 (((27 : ℚ)/200000) * (1 + 8/100)) = 1/10000 := by
    simp only [round4, hm, roundHalfEven, hf]
    norm_num
  simp only [calculate_yaxis_range, seriesMax, List.isEmpty_cons, List.foldl_nil, hr]
  norm_num

/-- C3 (amended): `yMin ≥ 0` holds for every input, including after the
4-decimal rounding step; and for every non-empty series `S` with
`min(S) ≥ 0.000625` (so that the rounding error `0.00005` cannot cross
the 8% margin; NAV magnitudes are far above this), the returned pair
satisfies `yMin ≤ min(S) ≤ max(S) ≤ yMax`. -/
theorem yaxis_range_bounds (s : List ℚ) :
    0 ≤ (calculate_yaxis_range s (8/100)).2 ∧
    (s ≠ [] → 1/1600 ≤ seriesMin s →
      (calculate_yaxis_range s (8/100)).2 ≤ seriesMin s ∧
      seriesMin s ≤ seriesMax s ∧
      seriesMax s ≤ (calculate_yaxis_range s (8/100)).1) := by
  by_cases hs : s = []
  · subst hs
    exact ⟨by norm_num [calculate_yaxis_range], by intro h; exact absurd rfl h⟩
  · have hs' : s.isEmpty = false := by simpa [List.isEmpty_iff] using hs
    simp only [calculate_yaxis_range, hs', Bool.false_eq_true, if_false]
    constructor
    · exact round4_nonneg _ (le_max_right _ 0)
    · intro hne hmin
      have hminmax : seriesMin s ≤ seriesMax s := seriesMin_le_seriesMax s hne
      have hpos : 0 ≤ seriesMin s * (1 - 8/100) := by nlinarith
      have hmax0 : max (seriesMin s * (1 - 8/100)) 0 = seriesMin s * (1 - 8/100) :=
        max_eq_left hpos
      refine ⟨?_, hminmax, ?_⟩
      · rw [hmax0]
        have h := round4_le (seriesMin s * (1 - 8/100))
        nlinarith
      · have h := round4_ge (seriesMax s * (1 + 8/100))
        nlinarith

/-- Witness for C3 (amended) at the concrete series `[1, 2]`. -/
theorem yaxis_range_bounds_witness :
    (calculate_yaxis_range [(1 : ℚ), 2] (8/100)).2 ≤ seriesMin [(1 : ℚ), 2] ∧
    seriesMin [(1 : ℚ), 2] ≤ seriesMax [(1 : ℚ), 2] ∧
    seriesMax [(1 : ℚ), 2] ≤ (calculate_yaxis_range [(1 : ℚ), 2] (8/100)).1 :=
  (yaxis_range_bounds [(1 : ℚ), 2]).2 (by simp)
    (by norm_num [seriesMin, List.foldl, min_def])

/-! ## Claim C1 -/

theorem takeToClose_append : ∀ (ys tail : List Char), ')' ∉ ys → '\n' ∉ ys →
    takeToClose (ys ++ ')' :: tail) = some ys := by
  intro ys
  induction ys with
  | nil => intro tail _ _; simp [takeToClose]
  | cons c cs ih =>
    intro tail hy hn
    have hc : ¬ (c = ')') := fun h => hy (by simp [h])
    have hc2 : ¬ (c = '\n') := fun h => hn (by simp [h])
    have hy' : ')' ∉ cs := fun h => hy (List.mem_cons_of_mem _ h)
    have hn' : '\n' ∉ cs := fun h => hn (List.mem_cons_of_mem _ h)
    simp [takeToClose, hc, hc2, ih tail hy' hn']

theorem scanParen_skip : ∀ (xs rest : List Char), '(' ∉ xs →
    scanParen (xs ++ rest) = scanParen rest := by
  intro xs
  induction xs with
  | nil => intro rest _; rfl
  | cons c cs ih =>
    intro rest hx
    have hc : ¬ (c = '(') := fun h => hx (by simp [h])
    have hx' : '(' ∉ cs := fun h => hx (List.mem_cons_of_mem _ h)
    simp [scanParen, hc, ih rest hx']

/-- C1 counterexample: for the JSONP body `name(J)` with
`name = jQuery_1_2` and `J = {"a":"x)"}` (a serialized JSON object whose
string value contains a parenthesis), the regex `\((.*?)\)` stops at the
first `)` — inside the string value — so the fetcher does **not** extract
the text between the first balanced parenthesis pair: it extracts the
truncated prefix `{"a":"x`, which is not the JSON object `J`. -/
theorem extractJsonp_truncates_cex :
    extractJsonp ("jQuery_1_2" ++ "(" ++ "\x7b\"a\":\"x)\"\x7d" ++ ")") = some "\x7b\"a\":\"x" ∧
    extractJsonp ("jQuery_1_2" ++ "(" ++ "\x7b\"a\":\"x)\"\x7d" ++ ")") ≠
      some "\x7b\"a\":\"x)\"\x7d" := by
  constructor
  · with_unfolding_all rfl
  · with_unfolding_all decide

/-- C1 (amended): the fetcher extracts the text between the first `(`
and the first following `)` (lazy regex matching, not balanced-pair
matching).  For a JSONP body `name(J)` in which the callback name
contains no `(` and the serialized JSON `J` contains no `)` and no
newline — the case for all regular provider payloads — the extracted
text is exactly `J`; when `J` contains `)` inside a string value the
extraction is truncated (see the counterexample), json.loads then fails,
and the fetcher logs and returns `None`. -/
theorem extractJsonp_no_close_paren (name J : String)
    (hn : '(' ∉ name.data) (hJ : ')' ∉ J.data) (hJn : '\n' ∉ J.data) :
    extractJsonp (name ++ "(" ++ J ++ ")") = some J := by
  obtain ⟨nd⟩ := name
  obtain ⟨Jd⟩ := J
  have hd : ((⟨nd⟩ ++ "(" ++ ⟨Jd⟩ ++ ")" : String)).data = nd ++ ('(' :: (Jd ++ [')'])) := by
    show (nd ++ '('.toString.data) ++ Jd ++ ')'.toString.data = nd ++ ('(' :: (Jd ++ [')']))
    simp [Char.toString]
  unfold extractJsonp
  rw [hd, scanParen_skip nd _ hn]
  simp only [scanParen, if_pos rfl, takeToClose_append Jd [] hJ hJn]
  simp

/-- Witness for C1 (amended) at a concrete callback name and JSON body. -/
theorem extractJsonp_no_close_paren_witness :
    extractJsonp ("jQuery_1_2" ++ "(" ++ "\x7b\"a\":1\x7d" ++ ")") = some "\x7b\"a\":1\x7d" :=
  extractJsonp_no_close_paren "jQuery_1_2" "\x7b\"a\":1\x7d" (by decide) (by decide) (by decide)

/-! ## Claim C5 -/

theorem getFundNavDataRaw_ok_none_log (code : String)
    (jsonLoads : String → Except PyExc JsonVal) (o : FetchOutcome)
    (log : List LogEvent)
    (h : getFundNavDataRaw code jsonLoads o = .ok (none, log)) : log ≠ [] := by
  unfold getFundNavDataRaw at h
  split at h
  all_goals try split at h
  all_goals try split at h
  all_goals try split at h
  all_goals try split at h
  all_goals try split at h
  all_goals try split at h
  all_goals intro hl
  all_goals subst hl
  all_goals simp at h

/-- C5: `get_fund_nav_data` never raises past its boundary.  Unless the
full success path completes (transport OK, JSONP wrapper found, JSON
decoded, zero `ErrCode`, `Data.LSJZList` extracted), the fetcher returns
`None` together with a non-empty log naming the cause: the try-body is
wrapped in handlers for `requests.RequestException`,
`(json.JSONDecodeError, KeyError)` and a final bare `except Exception`,
which together cover every exception, and each failure branch logs. -/
theorem getFundNavData_failure_none (code : String)
    (jsonLoads : String → Except PyExc JsonVal) (o : FetchOutcome)
    (h : ∀ lst log, getFundNavDataRaw code jsonLoads o ≠ .ok (some lst, log)) :
    (getFundNavData code jsonLoads o).1 = none ∧
    (getFundNavData code jsonLoads o).2 ≠ [] := by
  unfold getFundNavData
  cases hraw : getFundNavDataRaw code jsonLoads o with
  | error e => cases e <;> simp [handleFetchExc]
  | ok r =>
    obtain ⟨opt, log⟩ := r
    cases opt with
    | some lst => exact absurd hraw (h lst log)
    | none =>
      exact ⟨rfl, getFundNavDataRaw_ok_none_log code jsonLoads o log hraw⟩

/-- Witness for C5: a body whose JSONP payload fails to decode
(`json.loads` raises `JSONDecodeError`); the fetcher returns `None` and
logs. -/
theorem getFundNavData_failure_none_witness :
    (getFundNavData "007339" (fun _ => .error .jsonDecodeError) (.success "jQuery_1_2(x)")).1
      = none ∧
    (getFundNavData "007339" (fun _ => .error .jsonDecodeError) (.success "jQuery_1_2(x)")).2
      ≠ [] := by
  refine getFundNavData_failure_none "007339" (fun _ => .error .jsonDecodeError)
    (.success "jQuery_1_2(x)") ?_
  intro lst log hc
  have hraw : getFundNavDataRaw "007339" (fun _ => .error .jsonDecodeError)
      (.success "jQuery_1_2(x)") = .error .jsonDecodeError := by
    with_unfolding_all rfl
  rw [hraw] at hc
  exact Except.noConfusion hc

/-! ## Date-index lemmas for the aligner (claims C2 and C4) -/

theorem itemDateAt_nil (idx k : ℕ) : itemDateAt [] idx k = none := by
  simp [itemDateAt]

theorem itemDateAt_self (item : NavRecord) (rest : List NavRecord) (idx : ℕ) :
    itemDateAt (item :: rest) idx idx = some (item.fsrq.getD "") := by
  simp [itemDateAt]

theorem itemDateAt_under (items : List NavRecord) (idx k : ℕ) (h : ¬ idx ≤ k) :
    itemDateAt items idx k = none := by
  simp [itemDateAt, h]

theorem itemDateAt_cons (item : NavRecord) (rest : List NavRecord) (idx k : ℕ)
    (hk : k ≠ idx) : itemDateAt (item :: rest) idx k = itemDateAt rest (idx + 1) k := by
  unfold itemDateAt
  by_cases h1 : idx ≤ k
  · have h2 : idx + 1 ≤ k := by omega
    rw [if_pos h1, if_pos h2]
    have h3 : k - idx = (k - (idx + 1)) + 1 := by omega
    rw [h3]
    rfl
  · have h2 : ¬ (idx + 1 ≤ k) := by omega
    rw [if_neg h1, if_neg h2]

theorem dlookup_dateUpdate (idx : ℕ) (d : String) (dm : List (ℕ × String)) (k : ℕ) :
    dlookup k (if (dlookup idx dm).isSome then dm else dinsert idx d dm) =
      if k = idx then oor (dlookup idx dm) (some d) else dlookup k dm := by
  by_cases hs : (dlookup idx dm).isSome
  · rw [if_pos hs]
    by_cases hk : k = idx
    · subst hk
      cases hc : dlookup k dm with
      | some v => rw [if_pos rfl]; rfl
      | none => rw [hc] at hs; simp at hs
    · rw [if_neg hk]
  · rw [if_neg hs]
    have hnone : dlookup idx dm = none := by
      cases hc : dlookup idx dm with
      | some v => rw [hc] at hs; simp at hs
      | none => rfl
    rw [dlookup_dinsert k idx d dm]
    by_cases hk : k = idx
    · subst hk; rw [if_pos rfl, if_pos rfl, hnone]; rfl
    · rw [if_neg hk, if_neg hk]

theorem processItems_dm : ∀ (items : List NavRecord) (idx : ℕ) (dm : List (ℕ × String))
    (series : List (ℕ × ℚ)) (dm' : List (ℕ × String)) (series' : List (ℕ × ℚ)),
    processItems items idx dm series = .ok (dm', series') →
    ∀ k, dlookup k dm' = oor (dlookup k dm) (itemDateAt items idx k) := by
  intro items
  induction items with
  | nil =>
    intro idx dm series dm' series' h k
    simp only [processItems, Except.ok.injEq, Prod.mk.injEq] at h
    rw [← h.1, itemDateAt_nil, oor_none_right]
  | cons item rest ih =>
    intro idx dm series dm' series' h k
    cases hpf : pyFloat (item.dwjz.getD (.jstr "0")) with
    | ok q =>
      simp only [processItems, hpf] at h
      rw [ih (idx + 1) _ _ dm' series' h k, dlookup_dateUpdate]
      by_cases hk : k = idx
      · subst hk
        rw [if_pos rfl, itemDateAt_under rest (k + 1) k (by omega), oor_none_right,
          itemDateAt_self]
      · rw [if_neg hk, itemDateAt_cons item rest idx k hk]
    | error e =>
      cases e with
      | valueError =>
        simp only [processItems, hpf] at h
        rw [ih (idx + 1) _ _ dm' series' h k, dlookup_dateUpdate]
        by_cases hk : k = idx
        · subst hk
          rw [if_pos rfl, itemDateAt_under rest (k + 1) k (by omega), oor_none_right,
            itemDateAt_self]
        · rw [if_neg hk, itemDateAt_cons item rest idx k hk]
      | requestException => simp [processItems, hpf] at h
      | jsonDecodeError => simp [processItems, hpf] at h
      | keyError => simp [processItems, hpf] at h
      | attributeError => simp [processItems, hpf] at h
      | typeError => simp [processItems, hpf] at h

theorem fetchLoop_dm (fetch : String → Option (List NavRecord)) :
    ∀ (codes : List String) (dm : List (ℕ × String)) (fd : List (String × List (ℕ × ℚ)))
    (dm' : List (ℕ × String)) (fd' : List (String × List (ℕ × ℚ))),
    fetchLoop fetch codes dm fd = .ok (dm', fd') →
    ∀ k, dlookup k dm' = oor (dlookup k dm) (firstDateAt fetch codes k) := by
  intro codes
  induction codes with
  | nil =>
    intro dm fd dm' fd' h k
    simp only [fetchLoop, Except.ok.injEq, Prod.mk.injEq] at h
    rw [← h.1, firstDateAt, oor_none_right]
  | cons c rest ih =>
    intro dm fd dm' fd' h k
    cases hfc : fetch c with
    | none =>
      simp only [fetchLoop, hfc] at h
      rw [ih dm fd dm' fd' h k]
      simp [firstDateAt, hfc]
    | some l =>
      cases l with
      | nil =>
        simp only [fetchLoop, hfc] at h
        rw [ih dm fd dm' fd' h k]
        simp [firstDateAt, hfc]
      | cons item items =>
        simp only [fetchLoop, hfc] at h
        cases hpi : processItems ((item :: items).reverse) 0 dm ((dlookup c fd).getD []) with
        | error e => rw [hpi] at h; exact Except.noConfusion h
        | ok pr =>
          obtain ⟨dm1, s1⟩ := pr
          rw [hpi] at h
          rw [ih dm1 _ dm' fd' h k, processItems_dm _ 0 dm _ dm1 s1 hpi k, oor_assoc]
          have hshape : itemDateAt ((item :: items).reverse) 0 k =
              ((item :: items).reverse.get? k).map (fun r => r.fsrq.getD "") := by
            simp [itemDateAt]
          rw [hshape]
          simp [firstDateAt, hfc]

/-- Shared characterization of the date index: under a completed run,
the date at offset `k` is that of the first fund (in iteration order)
whose reversed record list reaches position `k`. -/
theorem dateMapping_eq_firstDateAt (codes : List String)
    (fetch : String → Option (List NavRecord))
    (dm : List (ℕ × String)) (fd : List (String × List (ℕ × ℚ)))
    (hrun : fetchMultipleFundsData codes fetch = .ok (dm, fd)) (k : ℕ) :
    dlookup k dm = firstDateAt fetch codes k := by
  unfold fetchMultipleFundsData at hrun
  have h := fetchLoop_dm fetch codes [] (initFd codes) dm fd hrun k
  simpa using h

/-! ## Claim C4 -/

/-- C4: under a completed run of `fetch_multiple_funds_data`, the
DateIndex at offset `i` is exactly the `FSRQ` of the record at position
`i` of the reversed (oldest-first) record list of the first fund, in
iteration order, whose list reaches that offset (`firstDateAt`); offsets
already set are never overwritten by later funds, and offsets no fund
reaches are absent. -/
theorem date_mapping_first_fund (codes : List String)
    (fetch : String → Option (List NavRecord))
    (dm : List (ℕ × String)) (fd : List (String × List (ℕ × ℚ)))
    (hrun : fetchMultipleFundsData codes fetch = .ok (dm, fd)) (i : ℕ) :
    dlookup i dm = firstDateAt fetch codes i :=
  dateMapping_eq_firstDateAt codes fetch dm fd hrun i

/-- Witness for C4: a two-fund run; offset 2 is reached only by the
second fund, offsets 0 and 1 keep the first fund's dates. -/
theorem date_mapping_first_fund_witness :
    dlookup 2 c4Dm = firstDateAt c4Fetch ["001", "002"] 2 ∧
    dlookup 0 c4Dm = firstDateAt c4Fetch ["001", "002"] 0 :=
  ⟨date_mapping_first_fund ["001", "002"] c4Fetch c4Dm c4Fd (by with_unfolding_all rfl) 2,
    date_mapping_first_fund ["001", "002"] c4Fetch c4Dm c4Fd (by with_unfolding_all rfl) 0⟩

/-! ## Claim C2 -/

theorem firstSuccess_ne_nil (fetch : String → Option (List NavRecord)) :
    ∀ (codes : List String) (c : String) (l : List NavRecord),
    firstSuccess fetch codes = some (c, l) → l ≠ [] := by
  intro codes
  induction codes with
  | nil => intro c l h; exact absurd h (by simp [firstSuccess])
  | cons c0 rest ih =>
    intro c l h
    cases hfc : fetch c0 with
    | none => rw [firstSuccess, hfc] at h; exact ih c l h
    | some l0 =>
      cases l0 with
      | nil => rw [firstSuccess, hfc] at h; exact ih c l h
      | cons item items =>
        rw [firstSuccess, hfc] at h
        simp at h
        rw [← h.2]
        exact List.cons_ne_nil item items

theorem firstDateAt_of_firstSuccess (fetch : String → Option (List NavRecord)) :
    ∀ (codes : List String) (c : String) (l : List NavRecord),
    firstSuccess fetch codes = some (c, l) → ∀ k, k < l.length →
    firstDateAt fetch codes k = (l.reverse.get? k).map (fun r => r.fsrq.getD "") := by
  intro codes
  induction codes with
  | nil => intro c l h; exact absurd h (by simp [firstSuccess])
  | cons c0 rest ih =>
    intro c l h k hk
    cases hfc : fetch c0 with
    | none =>
      rw [firstSuccess, hfc] at h
      rw [firstDateAt, hfc]
      exact ih c l h k hk
    | some l0 =>
      cases l0 with
      | nil =>
        rw [firstSuccess, hfc] at h
        rw [firstDateAt, hfc]
        exact ih c l h k hk
      | cons item items =>
        rw [firstSuccess, hfc] at h
        simp at h
        rw [← h.2] at hk ⊢
        have hlt : k < (item :: items).reverse.length := by simpa using hk
        simp only [firstDateAt, hfc]
        rw [List.get?_eq_get hlt]
        rfl

/-- C2 counterexample: a run over one fund whose provider list is
newest-first (`2024-01-02` then `2024-01-01`).  The aligner stores the
*older* date at offset 0 and the newer date at offset 1 — offset 0 is the
oldest date of the window, not the most recent, and dates at larger
offsets are newer, not older. -/
theorem dateIndex_offset0_cex :
    fetchMultipleFundsData ["001"] c2cexFetch =
      .ok ([(0, "2024-01-01"), (1, "2024-01-02")], [("001", [(0, 1), (1, 11/10)])]) ∧
    dlookup 0 [((0 : ℕ), "2024-01-01"), (1, "2024-01-02")] = some "2024-01-01" ∧
    dlookup 1 [((0 : ℕ), "2024-01-01"), (1, "2024-01-02")] = some "2024-01-02" ∧
    ("2024-01-01" : String) < "2024-01-02" := by
  refine ⟨by with_unfolding_all rfl, by with_unfolding_all rfl,
    by with_unfolding_all rfl, ?_⟩
  with_unfolding_all decide

/-- C2 (amended): in the DateIndex of a completed run, offset 0 maps to
the *oldest* date of the fetched window of the first fund (in iteration
order) that returns records — the last record of its newest-first
provider list — and, within that fund's offsets, dates at larger offsets
are strictly newer (given the provider's strictly newest-first order). -/
theorem dateIndex_oldest_first (codes : List String)
    (fetch : String → Option (List NavRecord))
    (dm : List (ℕ × String)) (fd : List (String × List (ℕ × ℚ)))
    (c : String) (l : List NavRecord)
    (hrun : fetchMultipleFundsData codes fetch = .ok (dm, fd))
    (hfs : firstSuccess fetch codes = some (c, l))
    (hsorted : (l.map fun r => r.fsrq.getD "").Pairwise fun a b => b < a) :
    (∀ h : l ≠ [], dlookup 0 dm = some ((l.getLast h).fsrq.getD "")) ∧
    (∀ i j : ℕ, i < j → j < l.length → ∀ di dj, dlookup i dm = some di →
      dlookup j dm = some dj → di < dj) := by
  have hkey : ∀ k, k < l.length →
      dlookup k dm = (l.reverse.get? k).map (fun r => r.fsrq.getD "") := fun k hk =>
    (dateMapping_eq_firstDateAt codes fetch dm fd hrun k).trans
      (firstDateAt_of_firstSuccess fetch codes c l hfs k hk)
  constructor
  · intro h
    rw [hkey 0 (List.length_pos.mpr h), List.get?_zero, List.head?_reverse,
      List.getLast?_eq_getLast_of_ne_nil h]
    rfl
  · intro i j hij hj di dj hdi hdj
    have hi : i < l.length := lt_trans hij hj
    have hi' : i < l.reverse.length := by simpa using hi
    have hj' : j < l.reverse.length := by simpa using hj
    rw [hkey i hi, List.get?_eq_get hi'] at hdi
    rw [hkey j hj, List.get?_eq_get hj'] at hdj
    have hpw : (l.reverse.map (fun r => r.fsrq.getD "")).Pairwise
        (fun a b : String => a < b) := by
      rw [List.map_reverse]
      exact List.pairwise_reverse.mpr hsorted
    have hilen : i < (l.reverse.map (fun r => r.fsrq.getD "")).length := by simpa using hi
    have hjlen : j < (l.reverse.map (fun r => r.fsrq.getD "")).length := by simpa using hj
    have hgm := List.pairwise_iff_get.mp hpw ⟨i, hilen⟩ ⟨j, hjlen⟩ (by simpa using hij)
    simp only [List.get_map] at hgm
    simp only [Option.map_some'] at hdi hdj
    rw [← Option.some_inj.mp hdi, ← Option.some_inj.mp hdj]
    exact hgm

/-- Witness for C2 (amended) at a three-record fund: offset 0 holds the
oldest date. -/
theorem dateIndex_oldest_first_witness :
    dlookup 0 c2Dm = some "2024-01-01" := by
  have h := dateIndex_oldest_first ["001"] c2Fetch c2Dm c2Fd "001" c2List
    (by with_unfolding_all rfl) (by with_unfolding_all rfl) (by with_unfolding_all decide)
  have h0 := h.1 (by simp [c2List])
  rw [h0]
  with_unfolding_all rfl

/-! ## Series lemmas for the aligner (claims C6 and C8) -/

theorem itemValueAt_nil (idx k : ℕ) : itemValueAt [] idx k = none := by
  simp [itemValueAt]

theorem itemValueAt_self (item : NavRecord) (rest : List NavRecord) (idx : ℕ) :
    itemValueAt (item :: rest) idx idx = some (recValue item) := by
  simp [itemValueAt]

theorem itemValueAt_under (items : List NavRecord) (idx k : ℕ) (h : ¬ idx ≤ k) :
    itemValueAt items idx k = none := by
  simp [itemValueAt, h]

theorem itemValueAt_cons (item : NavRecord) (rest : List NavRecord) (idx k : ℕ)
    (hk : k ≠ idx) : itemValueAt (item :: rest) idx k = itemValueAt rest (idx + 1) k := by
  unfold itemValueAt
  by_cases h1 : idx ≤ k
  · have h2 : idx + 1 ≤ k := by omega
    rw [if_pos h1, if_pos h2]
    have h3 : k - idx = (k - (idx + 1)) + 1 := by omega
    rw [h3]
    rfl
  · have h2 : ¬ (idx + 1 ≤ k) := by omega
    rw [if_neg h1, if_neg h2]

theorem processItems_series : ∀ (items : List NavRecord) (idx : ℕ)
    (dm : List (ℕ × String)) (series : List (ℕ × ℚ))
    (dm' : List (ℕ × String)) (series' : List (ℕ × ℚ)),
    processItems items idx dm series = .ok (dm', series') →
    ∀ k, dlookup k series' = oor (itemValueAt items idx k) (dlookup k series) := by
  intro items
  induction items with
  | nil =>
    intro idx dm series dm' series' h k
    simp only [processItems, Except.ok.injEq, Prod.mk.injEq] at h
    rw [← h.2, itemValueAt_nil, oor_none_left]
  | cons item rest ih =>
    intro idx dm series dm' series' h k
    cases hpf : pyFloat (item.dwjz.getD (.jstr "0")) with
    | ok q =>
      simp only [processItems, hpf] at h
      have hrv : recValue item = q := by unfold recValue; rw [hpf]
      rw [ih (idx + 1) _ _ dm' series' h k]
      by_cases hk : k = idx
      · subst hk
        rw [itemValueAt_under rest (k + 1) k (by omega), oor_none_left,
          dlookup_dinsert_self, itemValueAt_self, hrv]
        rfl
      · rw [dlookup_dinsert_ne k idx q hk, itemValueAt_cons item rest idx k hk]
    | error e =>
      cases e with
      | valueError =>
        simp only [processItems, hpf] at h
        have hrv : recValue item = 0 := by unfold recValue; rw [hpf]
        rw [ih (idx + 1) _ _ dm' series' h k]
        by_cases hk : k = idx
        · subst hk
          rw [itemValueAt_under rest (k + 1) k (by omega), oor_none_left,
            dlookup_dinsert_self, itemValueAt_self, hrv]
          rfl
        · rw [dlookup_dinsert_ne k idx 0 hk, itemValueAt_cons item rest idx k hk]
      | requestException => simp [processItems, hpf] at h
      | jsonDecodeError => simp [processItems, hpf] at h
      | keyError => simp [processItems, hpf] at h
      | attributeError => simp [processItems, hpf] at h
      | typeError => simp [processItems, hpf] at h

theorem fetchLoop_keepChar (fetch : String → Option (List NavRecord)) (c : String) :
    ∀ (codes : List String) (dm : List (ℕ × String)) (fd : List (String × List (ℕ × ℚ)))
    (dm' : List (ℕ × String)) (fd' : List (String × List (ℕ × ℚ))) (s : List (ℕ × ℚ)),
    fetchLoop fetch codes dm fd = .ok (dm', fd') →
    dlookup c fd = some s → (∀ k, dlookup k s = fundValueAt fetch c k) →
    ∃ s', dlookup c fd' = some s' ∧ ∀ k, dlookup k s' = fundValueAt fetch c k := by
  intro codes
  induction codes with
  | nil =>
    intro dm fd dm' fd' s h hs hchar
    simp only [fetchLoop, Except.ok.injEq, Prod.mk.injEq] at h
    exact ⟨s, h.2 ▸ hs, hchar⟩
  | cons c0 rest ih =>
    intro dm fd dm' fd' s h hs hchar
    cases hfc : fetch c0 with
    | none =>
      simp only [fetchLoop, hfc] at h
      exact ih dm fd dm' fd' s h hs hchar
    | some l =>
      cases l with
      | nil =>
        simp only [fetchLoop, hfc] at h
        exact ih dm fd dm' fd' s h hs hchar
      | cons item items =>
        simp only [fetchLoop, hfc] at h
        cases hpi : processItems ((item :: items).reverse) 0 dm ((dlookup c0 fd).getD []) with
        | error e => rw [hpi] at h; exact Except.noConfusion h
        | ok pr =>
          obtain ⟨dm1, s1⟩ := pr
          rw [hpi] at h
          by_cases hcc : c = c0
          · subst hcc
            have hbase : (dlookup c fd).getD [] = s := by rw [hs]; rfl
            rw [hbase] at hpi
            have hs1 : ∀ k, dlookup k s1 = fundValueAt fetch c k := by
              intro k
              rw [processItems_series _ 0 dm s dm1 s1 hpi k, hchar k]
              have hshape : itemValueAt ((item :: items).reverse) 0 k =
                  fundValueAt fetch c k := by
                simp [itemValueAt, fundValueAt, hfc]
              rw [hshape, oor_self]
            exact ih dm1 _ dm' fd' s1 h (dlookup_dinsert_self c s1 fd) hs1
          · exact ih dm1 _ dm' fd' s h
              ((dlookup_dinsert_ne c c0 s1 hcc fd).trans hs) hchar

theorem fetchLoop_reachChar (fetch : String → Option (List NavRecord)) (c : String)
    (l : List NavRecord) (hl : fetch c = some l) (hlne : l ≠ []) :
    ∀ (codes : List String) (dm : List (ℕ × String)) (fd : List (String × List (ℕ × ℚ)))
    (dm' : List (ℕ × String)) (fd' : List (String × List (ℕ × ℚ))),
    fetchLoop fetch codes dm fd = .ok (dm', fd') →
    (dlookup c fd = some [] ∨
      ∃ s, dlookup c fd = some s ∧ ∀ k, dlookup k s = fundValueAt fetch c k) →
    c ∈ codes →
    ∃ s', dlookup c fd' = some s' ∧ ∀ k, dlookup k s' = fundValueAt fetch c k := by
  intro codes
  induction codes with
  | nil => intro dm fd dm' fd' h hinv hmem; cases hmem
  | cons c0 rest ih =>
    intro dm fd dm' fd' h hinv hmem
    by_cases hcc : c = c0
    · subst hcc
      cases l with
      | nil => exact absurd rfl hlne
      | cons item items =>
        simp only [fetchLoop, hl] at h
        cases hpi : processItems ((item :: items).reverse) 0 dm ((dlookup c fd).getD []) with
        | error e => rw [hpi] at h; exact Except.noConfusion h
        | ok pr =>
          obtain ⟨dm1, s1⟩ := pr
          rw [hpi] at h
          have hshape : ∀ k, itemValueAt ((item :: items).reverse) 0 k =
              fundValueAt fetch c k := by
            intro k
            simp [itemValueAt, fundValueAt, hl]
          have hs1 : ∀ k, dlookup k s1 = fundValueAt fetch c k := by
            rcases hinv with hempty | ⟨s, hs, hchar⟩
            · intro k
              have hbase : (dlookup c fd).getD [] = [] := by rw [hempty]; rfl
              rw [hbase] at hpi
              rw [processItems_series _ 0 dm [] dm1 s1 hpi k, dlookup_nil, oor_none_right,
                hshape k]
            · intro k
              have hbase : (dlookup c fd).getD [] = s := by rw [hs]; rfl
              rw [hbase] at hpi
              rw [processItems_series _ 0 dm s dm1 s1 hpi k, hchar k, hshape k, oor_self]
          exact fetchLoop_keepChar fetch c rest dm1 _ dm' fd' s1 h
            (dlookup_dinsert_self c s1 fd) hs1
    · have hmem' : c ∈ rest := by
        rcases List.mem_cons.mp hmem with h' | h'
        · exact absurd h' hcc
        · exact h'
      cases hfc : fetch c0 with
      | none =>
        simp only [fetchLoop, hfc] at h
        exact ih dm fd dm' fd' h hinv hmem'
      | some l0 =>
        cases l0 with
        | nil =>
          simp only [fetchLoop, hfc] at h
          exact ih dm fd dm' fd' h hinv hmem'
        | cons item items =>
          simp only [fetchLoop, hfc] at h
          cases hpi : processItems ((item :: items).reverse) 0 dm
              ((dlookup c0 fd).getD []) with
          | error e => rw [hpi] at h; exact Except.noConfusion h
          | ok pr =>
            obtain ⟨dm1, s1⟩ := pr
            rw [hpi] at h
            have hinv' : dlookup c (dinsert c0 s1 fd) = some [] ∨
                ∃ s, dlookup c (dinsert c0 s1 fd) = some s ∧
                  ∀ k, dlookup k s = fundValueAt fetch c k := by
              rw [dlookup_dinsert_ne c c0 s1 hcc fd]
              exact hinv
            exact ih dm1 _ dm' fd' h hinv' hmem'

theorem initFd_loop : ∀ (codes : List String) (acc : List (String × List (ℕ × ℚ)))
    (c : String), (c ∈ codes ∨ dlookup c acc = some []) →
    dlookup c (codes.foldl (fun fd c' => dinsert c' [] fd) acc) = some [] := by
  intro codes
  induction codes with
  | nil =>
    intro acc c h
    rcases h with h | h
    · cases h
    · exact h
  | cons c0 rest ih =>
    intro acc c h
    simp only [List.foldl_cons]
    by_cases hcc : c = c0
    · subst hcc
      exact ih (dinsert c [] acc) c (Or.inr (dlookup_dinsert_self c [] acc))
    · refine ih (dinsert c0 [] acc) c ?_
      rcases h with h | h
      · rcases List.mem_cons.mp h with h' | h'
        · exact absurd h' hcc
        · exact Or.inl h'
      · exact Or.inr ((dlookup_dinsert_ne c c0 [] hcc acc).trans h)

theorem initFd_lookup (codes : List String) (c : String) (hc : c ∈ codes) :
    dlookup c (initFd codes) = some [] :=
  initFd_loop codes [] c (Or.inl hc)

/-! ## Claim C8 -/

/-- C8 counterexample: a record whose `DWJZ` string is `"-1.5"` parses
successfully to a negative float, and the aligner stores that negative
value as-is — so not every stored NAV value is non-negative, and the
claimed dichotomy (parses to a value ≥ 0, or parse fails and 0.0 is
stored) misses the parses-to-a-negative-value case. -/
theorem negative_nav_stored_cex :
    fetchMultipleFundsData ["001"] c8CexFetch =
      .ok ([(0, "2024-01-01")], [("001", [(0, -(3/2))])]) ∧
    dlookup "001" [("001", [((0 : ℕ), -(3/2 : ℚ))])] = some [(0, -(3/2))] ∧
    dlookup 0 [((0 : ℕ), -(3/2 : ℚ))] = some (-(3/2)) ∧
    ¬ ((0 : ℚ) ≤ -(3/2)) := by
  refine ⟨by with_unfolding_all rfl, by with_unfolding_all rfl,
    by with_unfolding_all rfl, by norm_num⟩

/-- C8 (amended): for every fund whose fetch returns records, the final
series stores, at every reached offset, exactly the value
`recValue` of the record at that position of the reversed list — the
parsed `float` of its `DWJZ` string when parsing succeeds (stored as-is,
so negative strings yield negative stored values), and exactly `0.0`
when parsing raises `ValueError`; the record is kept, not dropped
(offsets `k < l.length` are all populated, `some`, and offsets beyond
the list are absent). -/
theorem nav_series_characterization (codes : List String)
    (fetch : String → Option (List NavRecord))
    (dm : List (ℕ × String)) (fd : List (String × List (ℕ × ℚ)))
    (c : String) (l : List NavRecord)
    (hrun : fetchMultipleFundsData codes fetch = .ok (dm, fd))
    (hc : c ∈ codes) (hl : fetch c = some l) (hlne : l ≠ []) :
    ∃ s, dlookup c fd = some s ∧ ∀ k, dlookup k s = (l.reverse.get? k).map recValue := by
  unfold fetchMultipleFundsData at hrun
  have hinit : dlookup c (initFd codes) = some [] := initFd_lookup codes c hc
  obtain ⟨s, hs, hchar⟩ := fetchLoop_reachChar fetch c l hl hlne codes [] (initFd codes)
    dm fd hrun (Or.inl hinit) hc
  refine ⟨s, hs, fun k => ?_⟩
  rw [hchar k]
  simp [fundValueAt, hl]

/-- Witness for C8 (amended): a run with one parsable record (`"1.5"`)
and one unparsable record (`"N/A"`): offset 0 (the older, unparsable
record) stores exactly `0.0` and offset 1 stores `1.5`. -/
theorem nav_series_characterization_witness :
    dlookup 0 [((0 : ℕ), (0 : ℚ)), (1, 3/2)] = some (0 : ℚ) ∧
    dlookup 1 [((0 : ℕ), (0 : ℚ)), (1, 3/2)] = some (3/2 : ℚ) := by
  obtain ⟨s, hs, hchar⟩ := nav_series_characterization ["001"] c8Fetch
    [(0, "2024-01-01"), (1, "2024-01-02")] [("001", [(0, 0), (1, 3/2)])] "001" c8List
    (by with_unfolding_all rfl) (by simp) (by with_unfolding_all rfl) (by simp [c8List])
  have hseq : some s = some [((0 : ℕ), (0 : ℚ)), (1, 3/2)] := by
    rw [← hs]
    with_unfolding_all rfl
  have hseq' : s = [((0 : ℕ), (0 : ℚ)), (1, 3/2)] := Option.some_inj.mp hseq
  subst hseq'
  constructor
  · rw [hchar 0]
    with_unfolding_all rfl
  · rw [hchar 1]
    with_unfolding_all rfl

/-! ## Claim C6 -/

theorem fetchLoop_failed_entry (fetch : String → Option (List NavRecord)) (c : String)
    (hfail : fetch c = none ∨ fetch c = some []) :
    ∀ (codes : List String) (dm : List (ℕ × String)) (fd : List (String × List (ℕ × ℚ)))
    (dm' : List (ℕ × String)) (fd' : List (String × List (ℕ × ℚ))),
    fetchLoop fetch codes dm fd = .ok (dm', fd') →
    dlookup c fd' = dlookup c fd := by
  intro codes
  induction codes with
  | nil =>
    intro dm fd dm' fd' h
    simp only [fetchLoop, Except.ok.injEq, Prod.mk.injEq] at h
    rw [← h.2]
  | cons c0 rest ih =>
    intro dm fd dm' fd' h
    cases hfc : fetch c0 with
    | none =>
      simp only [fetchLoop, hfc] at h
      exact ih dm fd dm' fd' h
    | some l =>
      cases l with
      | nil =>
        simp only [fetchLoop, hfc] at h
        exact ih dm fd dm' fd' h
      | cons item items =>
        have hcc : c ≠ c0 := by
          intro hc
          subst hc
          rcases hfail with h' | h'
          · rw [h'] at hfc; exact Option.noConfusion hfc
          · rw [h'] at hfc; exact List.noConfusion (Option.some.inj hfc)
        simp only [fetchLoop, hfc] at h
        cases hpi : processItems ((item :: items).reverse) 0 dm ((dlookup c0 fd).getD []) with
        | error e => rw [hpi] at h; exact Except.noConfusion h
        | ok pr =>
          obtain ⟨dm1, s1⟩ := pr
          rw [hpi] at h
          rw [ih dm1 _ dm' fd' h]
          exact dlookup_dinsert_ne c c0 s1 hcc fd

theorem zerosSeries_length (n : ℕ) : (zerosSeries n).length = n := by
  simp [zerosSeries]

theorem zerosSeries_all_zero (n : ℕ) : ∀ p ∈ zerosSeries n, (p : ℕ × ℚ).2 = 0 := by
  intro p hp
  simp only [zerosSeries, List.mem_map] at hp
  obtain ⟨i, -, hi⟩ := hp
  rw [← hi]

theorem buildCols_failed (dmLen : ℕ) (fd : List (String × List (ℕ × ℚ))) :
    ∀ (config : List (String × String)) (name code : String),
    (name, code) ∈ config → dlookup code fd = some [] →
    (name, zerosSeries dmLen) ∈ (buildCols dmLen fd config).1 ∧
    LogEvent.emptyFundWarning name code ∈ (buildCols dmLen fd config).2 := by
  intro config
  induction config with
  | nil => intro name code hmem; cases hmem
  | cons p rest ih =>
    obtain ⟨n0, c0⟩ := p
    intro name code hmem hcode
    cases hbc : buildCols dmLen fd rest with
    | mk cols log =>
      rcases List.mem_cons.mp hmem with heq | hmem'
      · have hn : name = n0 := congrArg Prod.fst heq
        have hc : code = c0 := congrArg Prod.snd heq
        subst hn
        subst hc
        simp only [buildCols, hbc, hcode, List.isEmpty_nil, if_pos]
        exact ⟨List.mem_cons_self _ _, List.mem_cons_self _ _⟩
      · have hih := ih name code hmem' hcode
        rw [hbc] at hih
        simp only [buildCols, hbc]
        cases hl0 : dlookup c0 fd with
        | none => exact ⟨List.mem_cons_of_mem _ hih.1, List.mem_cons_of_mem _ hih.2⟩
        | some s0 =>
          by_cases hs0 : s0.isEmpty
          · simp only [hs0, if_true]
            exact ⟨List.mem_cons_of_mem _ hih.1, List.mem_cons_of_mem _ hih.2⟩
          · simp only [hs0, Bool.false_eq_true, if_false]
            exact ⟨List.mem_cons_of_mem _ hih.1, hih.2⟩

theorem prepareChartData_ok (config : List (String × String))
    (fetch : String → Option (List NavRecord))
    (dm : List (ℕ × String)) (fd : List (String × List (ℕ × ℚ)))
    (hfm : fetchMultipleFundsData (config.map Prod.snd) fetch = .ok (dm, fd))
    (hcond : (dm.isEmpty || fd.all (fun p => p.2.isEmpty)) = false) :
    prepareChartData config fetch =
      (.ok (some (dm, (buildCols dm.length fd config).1)),
        (buildCols dm.length fd config).2) := by
  unfold prepareChartData
  rw [hfm]
  simp only [hcond, Bool.false_eq_true, if_false]

theorem prepareChartData_none (config : List (String × String))
    (fetch : String → Option (List NavRecord))
    (dm : List (ℕ × String)) (fd : List (String × List (ℕ × ℚ)))
    (hfm : fetchMultipleFundsData (config.map Prod.snd) fetch = .ok (dm, fd))
    (hcond : (dm.isEmpty || fd.all (fun p => p.2.isEmpty)) = true) :
    prepareChartData config fetch = (.ok none, [.noValidDataError]) := by
  unfold prepareChartData
  rw [hfm]
  simp only [hcond, if_true]

/-- C6: in every run in which at least one fund yields data (so the
pipeline proceeds to build chart columns), a configured fund whose fetch
fails entirely (`None` or no records) appears in the prepared chart data
as the all-zero series `{i: 0.0 for i in range(len(date_mapping))}` —
its length equals the shared DateIndex length and every value is exactly
`0.0` — and a warning naming that fund is logged. -/
theorem failed_fund_zero_series (config : List (String × String))
    (fetch : String → Option (List NavRecord))
    (dm : List (ℕ × String)) (cols : List (String × List (ℕ × ℚ)))
    (name code : String)
    (hmem : (name, code) ∈ config)
    (hfail : fetch code = none ∨ fetch code = some [])
    (hrun : (prepareChartData config fetch).1 = .ok (some (dm, cols))) :
    (name, zerosSeries dm.length) ∈ cols ∧
    (zerosSeries dm.length).length = dm.length ∧
    (∀ p ∈ zerosSeries dm.length, (p : ℕ × ℚ).2 = 0) ∧
    LogEvent.emptyFundWarning name code ∈ (prepareChartData config fetch).2 := by
  cases hfm : fetchMultipleFundsData (config.map Prod.snd) fetch with
  | error e =>
    rw [show prepareChartData config fetch = (.error e, []) by
      unfold prepareChartData; rw [hfm]] at hrun
    exact absurd hrun (by simp)
  | ok pr =>
    obtain ⟨dm0, fd0⟩ := pr
    cases hcond : (dm0.isEmpty || fd0.all (fun p => p.2.isEmpty)) with
    | true =>
      rw [prepareChartData_none config fetch dm0 fd0 hfm hcond] at hrun
      exact absurd hrun (by simp)
    | false =>
      have hp := prepareChartData_ok config fetch dm0 fd0 hfm hcond
      rw [hp] at hrun
      simp only [Except.ok.injEq, Option.some.injEq, Prod.mk.injEq] at hrun
      obtain ⟨hdm, hcols⟩ := hrun
      have hcode : code ∈ config.map Prod.snd :=
        List.mem_map.mpr ⟨(name, code), hmem, rfl⟩
      have hpres : dlookup code fd0 = some [] := by
        unfold fetchMultipleFundsData at hfm
        rw [fetchLoop_failed_entry fetch code hfail (config.map Prod.snd) []
          (initFd (config.map Prod.snd)) dm0 fd0 hfm]
        exact initFd_lookup _ code hcode
      have hb := buildCols_failed dm0.length fd0 config name code hmem hpres
      rw [hp, ← hdm, ← hcols]
      exact ⟨hb.1, zerosSeries_length _, zerosSeries_all_zero _, hb.2⟩

/-- Witness for C6: fund `B`/`002` fails while fund `A`/`001` returns
one record; `B`'s column is the all-zero series of length 1 and the
warning is logged. -/
theorem failed_fund_zero_series_witness :
    ("B", zerosSeries 1) ∈ [("A", [((0 : ℕ), (2469 : ℚ)/2000)]), ("B", zerosSeries 1)] ∧
    LogEvent.emptyFundWarning "B" "002" ∈
      (prepareChartData [("A", "001"), ("B", "002")] c6Fetch).2 := by
  have h := failed_fund_zero_series [("A", "001"), ("B", "002")] c6Fetch
    [(0, "2024-01-05")] [("A", [((0 : ℕ), (2469 : ℚ)/2000)]), ("B", zerosSeries 1)]
    "B" "002" (by simp) (Or.inl (by with_unfolding_all rfl)) (by with_unfolding_all rfl)
  exact ⟨h.1, h.2.2.2⟩

/-! ## Claim C7 -/

theorem mainRun_of_prepare_none (config : List (String × String))
    (fetch : String → Option (List NavRecord))
    (h : prepareChartData config fetch = (.ok none, [.noValidDataError])) :
    mainRun config fetch =
      (.abortedNoData, [.noValidDataError, .terminatedNoData]) := by
  unfold mainRun
  rw [h]
  rfl

/-- C7: if no fund yields any data — the DateIndex is empty or every
per-fund series dict is empty — the pipeline detects this in
`prepare_chart_data` before any chart generation, logs the error and the
termination message, returns with `abortedNoData` (no output file is
written), and no exception escapes (`mainRun` is total and its result
here is the logged abort, not a crash). -/
theorem pipeline_aborts_no_data (config : List (String × String))
    (fetch : String → Option (List NavRecord))
    (dm : List (ℕ × String)) (fd : List (String × List (ℕ × ℚ)))
    (hrun : fetchMultipleFundsData (config.map Prod.snd) fetch = .ok (dm, fd))
    (hempty : dm = [] ∨ ∀ p ∈ fd, (p : String × List (ℕ × ℚ)).2 = []) :
    (mainRun config fetch).1 = .abortedNoData ∧
    LogEvent.noValidDataError ∈ (mainRun config fetch).2 ∧
    LogEvent.terminatedNoData ∈ (mainRun config fetch).2 ∧
    ∀ p, (mainRun config fetch).1 ≠ .completed p := by
  have hcond : (dm.isEmpty || fd.all (fun p => p.2.isEmpty)) = true := by
    rcases hempty with h | h
    · subst h; simp
    · refine Bool.or_eq_true_iff.mpr (Or.inr ?_)
      rw [List.all_eq_true]
      intro p hp
      rw [List.isEmpty_iff]
      exact h p hp
  have hm := mainRun_of_prepare_none config fetch
    (prepareChartData_none config fetch dm fd hrun hcond)
  rw [hm]
  refine ⟨rfl, by simp, by simp, ?_⟩
  intro p
  simp

/-- Witness for C7: every fetch fails, the date index is empty, the run
aborts with the error logged. -/
theorem pipeline_aborts_no_data_witness :
    (mainRun [("A", "001")] c7Fetch).1 = .abortedNoData ∧
    LogEvent.noValidDataError ∈ (mainRun [("A", "001")] c7Fetch).2 := by
  have h := pipeline_aborts_no_data [("A", "001")] c7Fetch [] [("001", [])]
    (by with_unfolding_all rfl) (Or.inl rfl)
  exact ⟨h.1, h.2.1⟩

/-! ## Claim C10 -/

/-- C10: a well-formed provider payload in which one record's `DWJZ` is
present but is JSON `null` makes `float(None)` raise `TypeError`, which
the aligner's `except ValueError` does not catch:
`fetch_multiple_funds_data` raises, the top-level handler in `main`
catches and logs it, and the run produces no output file even though
fund `001` succeeded. -/
theorem typeError_aborts_run :
    fetchMultipleFundsData ["001", "002"] c10Fetch = .error .typeError ∧
    (mainRun [("A", "001"), ("B", "002")] c10Fetch).1 = .crashedLogged .typeError ∧
    LogEvent.mainError ∈ (mainRun [("A", "001"), ("B", "002")] c10Fetch).2 ∧
    (∀ p, (mainRun [("A", "001"), ("B", "002")] c10Fetch).1 ≠ .completed p) ∧
    c10Fetch "001" = some [⟨some "2024-01-05", some (.jstr "1.2345")⟩] := by
  have hlog : (mainRun [("A", "001"), ("B", "002")] c10Fetch).2 =
      [LogEvent.mainError] := by
    with_unfolding_all rfl
  have hres : (mainRun [("A", "001"), ("B", "002")] c10Fetch).1 =
      .crashedLogged .typeError := by
    with_unfolding_all rfl
  refine ⟨by with_unfolding_all rfl, hres, ?_, ?_, by with_unfolding_all rfl⟩
  · rw [hlog]
    simp
  · intro p
    rw [hres]
    simp
